import Mathlib

/-!
Shallow embedding of the chirpy_server request-handling core (src/main.go).

Conventions of the embedding:
- Go strings become Lean `String` (a structure around `List Char`);
  `len(s)` in Go measures UTF-8 bytes, embedded as `utf8Len` (the sum
  of `Char.utf8Size` over the characters).  `strings.ToLower` is
  embedded character-wise via `Char.toLower`; the denylist is pure
  ASCII, for which this agrees with Go.
- External collaborators (the database package, the uuid library, the
  JSON decoder for chirp requests) are parameters of the handlers:
  a store call is a function argument returning `Except StoreErr _`,
  and the handlers additionally return the list of store invocations
  they performed, so that non-invocation is a provable statement.
- The `atomic.Int32` hit counter is embedded as a `Nat` holding the
  32-bit two's-complement bit pattern; incrementing wraps modulo
  2^32 and `int32View` recovers the signed value that `%d` prints.
-/

/-- Embedding of `google/uuid.UUID` as an opaque identifier value. -/
structure UUID where
  val : Nat
deriving DecidableEq

/-- Embedding of `time.Time` as an opaque instant value. -/
structure Time where
  val : Nat
deriving DecidableEq

/-- Response type `User` of main.go (JSON fields id, created_at, updated_at, email). -/
structure User where
  id : UUID
  createdAt : Time
  updatedAt : Time
  email : String
deriving DecidableEq

/-- Request type `UserRequest` of main.go (JSON field email). -/
structure UserRequest where
  email : String
deriving DecidableEq

/-- Response type `Chirp` of main.go (JSON fields id, created_at, updated_at, body, user_id). -/
structure Chirp where
  id : UUID
  createdAt : Time
  updatedAt : Time
  body : String
  userID : UUID
deriving DecidableEq

/-- Request type `CreateChirpRequest` of main.go (JSON fields body, user_id). -/
structure CreateChirpRequest where
  body : String
  userID : UUID
deriving DecidableEq

/-- Error signalled by the external store (`database.Queries`): Go
distinguishes `sql.ErrNoRows` from every other error, so the embedding
carries exactly that distinction. -/
inductive StoreErr
  | noRows
  | failure
deriving DecidableEq

/-- Row type `database.User` of the external store. -/
structure DBUser where
  id : UUID
  createdAt : Time
  updatedAt : Time
  email : String
deriving DecidableEq

/-- Row type `database.Chirp` of the external store. -/
structure DBChirp where
  id : UUID
  createdAt : Time
  updatedAt : Time
  body : String
  userID : UUID
deriving DecidableEq

/-- Argument record `database.CreateUserParams`. -/
structure CreateUserParams where
  id : UUID
  email : String
  createdAt : Time
  updatedAt : Time
deriving DecidableEq

/-- Argument record `database.CreateChirpParams`. -/
structure CreateChirpParams where
  id : UUID
  createdAt : Time
  updatedAt : Time
  body : String
  userID : UUID
deriving DecidableEq

/-- Body of an HTTP response as the handlers of main.go produce it:
either the JSON of `ErrorResponse` (a single error message), the JSON
of a resource, or an empty body. -/
inductive RespBody
  | errJson (msg : String)
  | userJson (u : User)
  | chirpJson (c : Chirp)
  | chirpsJson (cs : List Chirp)
  | empty
deriving DecidableEq

/-- An HTTP response: status code plus serialized body. -/
structure Response where
  status : Nat
  body : RespBody
deriving DecidableEq

/-- UTF-8 byte length of a character list; `Char.utf8Size` is the
number of bytes of the UTF-8 encoding of one character. -/
def utf8LenL (l : List Char) : Nat :=
  (l.map Char.utf8Size).sum

/-- Embedding of Go's `len(s)` on a string: the UTF-8 byte length. -/
def utf8Len (s : String) : Nat :=
  utf8LenL s.data

/-- Accumulator form of splitting a character list at every space,
matching `strings.Split(input, " ")`: adjacent separators produce empty
tokens and the empty input produces the single empty token. -/
def splitOnSpaceAux : List Char → List Char → List (List Char)
  | [], acc => [acc.reverse]
  | c :: cs, acc =>
    if c = ' ' then acc.reverse :: splitOnSpaceAux cs []
    else splitOnSpaceAux cs (c :: acc)

/-- Embedding of `strings.Split(input, " ")`. -/
def splitOnSpace (l : List Char) : List (List Char) :=
  splitOnSpaceAux l []

/-- Embedding of `strings.Join(words, " ")`. -/
def joinSpace : List (List Char) → List Char
  | [] => []
  | [w] => w
  | w :: ws => w ++ ' ' :: joinSpace ws

/-- The fixed denylist `profaneWords` of main.go. -/
def profaneWords : List (List Char) :=
  ["kerfuffle".data, "sharbert".data, "fornax".data]

/-- One iteration of the word loop of `cleanProfanity`: lowercase the
token and replace it by the mask when it equals a denylist word (the
inner loop with break is first-match, i.e. list membership). -/
def maskWord (w : List Char) : List Char :=
  if w.map Char.toLower ∈ profaneWords then "****".data else w

/-- Embedding of `cleanProfanity` of main.go: split on single spaces,
mask denylisted tokens, rejoin with single spaces. -/
def cleanProfanity (s : String) : String :=
  String.mk (joinSpace ((splitOnSpace s.data).map maskWord))

/-- Spec-side moderation function, stated from the words of the claim:
each token whose lowercasing exactly equals one of the three denylist
words kerfuffle, sharbert, fornax is replaced by the 4-character mask,
every other token is left unchanged, and tokens are rejoined with
single spaces.  Named differently from the source function so the two
can be compared. -/
def moderateSpec (s : String) : String :=
  String.mk (joinSpace ((splitOnSpace s.data).map (fun w =>
    if w.map Char.toLower = "kerfuffle".data
        ∨ w.map Char.toLower = "sharbert".data
        ∨ w.map Char.toLower = "fornax".data
    then "****".data else w)))

/-- Embedding of a decoded JSON value, as `encoding/json` sees a
request body. -/
inductive Json
  | null
  | str (s : String)
  | num (n : Int)
  | bool (b : Bool)
  | arr (xs : List Json)
  | obj (fields : List (String × Json))

/-- Last JSON object field whose key matches the struct field name the
way `encoding/json` matches it (case-insensitively; a later duplicate
key overwrites an earlier assignment). -/
def lookupField (name : String) (fields : List (String × Json)) : Option Json :=
  match fields with
  | [] => none
  | (k, v) :: rest =>
    match lookupField name rest with
    | some r => some r
    | none => if k.data.map Char.toLower = name.data.map Char.toLower then some v else none

/-- Embedding of `json.NewDecoder(r.Body).Decode(&userReq)` for the
struct `UserRequest`: `none` input is an empty body (EOF error); JSON
null or an object decode successfully, an absent or null email field
leaves the zero value, a non-string email value or a non-object
non-null document is a decode error. -/
def decodeUserRequest : Option Json → Option UserRequest
  | none => none
  | some Json.null => some ⟨""⟩
  | some (Json.obj fields) =>
    match lookupField "email" fields with
    | none => some ⟨""⟩
    | some (Json.str s) => some ⟨s⟩
    | some Json.null => some ⟨""⟩
    | some _ => none
  | some _ => none

/-- Result of running `createUserHandler`: the response together with
the list of `CreateUser` store invocations it performed. -/
structure UserHandlerResult where
  resp : Response
  storeCalls : List CreateUserParams
deriving DecidableEq

/-- Embedding of `createUserHandler` of main.go.  The fresh identifier
from `uuid.New()` and the two `time.Now().UTC()` instants are
parameters, as is the external store call `CreateUser`. -/
def createUserHandler (rawBody : Option Json) (freshId : UUID)
    (createdNow updatedNow : Time)
    (createUser : CreateUserParams → Except StoreErr DBUser) : UserHandlerResult :=
  match decodeUserRequest rawBody with
  | none => ⟨⟨400, RespBody.errJson "Invalid request payload"⟩, []⟩
  | some userReq =>
    let params : CreateUserParams := ⟨freshId, userReq.email, createdNow, updatedNow⟩
    match createUser params with
    | Except.error _ => ⟨⟨500, RespBody.errJson "Error creating user"⟩, [params]⟩
    | Except.ok dbUser =>
      ⟨⟨201, RespBody.userJson ⟨dbUser.id, dbUser.createdAt, dbUser.updatedAt, dbUser.email⟩⟩,
        [params]⟩

/-- Result of running `createChirpHandler`: the response, the inputs
passed to `cleanProfanity`, and the `CreateChirp` store invocations. -/
structure ChirpHandlerResult where
  resp : Response
  moderatorCalls : List String
  storeCalls : List CreateChirpParams
deriving DecidableEq

/-- Embedding of `createChirpHandler` of main.go.  The decode of the
request body is a parameter (`none` is a decode error); the length
check is on the UTF-8 byte length, as Go len is. -/
def createChirpHandler (decoded : Option CreateChirpRequest) (freshId : UUID)
    (createdNow updatedNow : Time)
    (createChirp : CreateChirpParams → Except StoreErr DBChirp) : ChirpHandlerResult :=
  match decoded with
  | none => ⟨⟨400, RespBody.errJson "Invalid request payload"⟩, [], []⟩
  | some req =>
    if utf8Len req.body > 140 then
      ⟨⟨400, RespBody.errJson "Chirp is too long"⟩, [], []⟩
    else
      let cleanedBody := cleanProfanity req.body
      let params : CreateChirpParams := ⟨freshId, createdNow, updatedNow, cleanedBody, req.userID⟩
      match createChirp params with
      | Except.error _ => ⟨⟨500, RespBody.errJson "Error creating chirp"⟩, [req.body], [params]⟩
      | Except.ok chirp =>
        ⟨⟨201, RespBody.chirpJson ⟨chirp.id, chirp.createdAt, chirp.updatedAt, chirp.body, chirp.userID⟩⟩,
          [req.body], [params]⟩

/-- Embedding of `getChirpByIDHandler` of main.go.  Parsing the path
segment with the external `uuid.Parse` is a parameter (`none` is a
parse error); the store lookup distinguishes `sql.ErrNoRows`. -/
def getChirpByIDHandler (parsed : Option UUID)
    (getChirpByID : UUID → Except StoreErr DBChirp) : Response :=
  match parsed with
  | none => ⟨400, RespBody.errJson "Invalid chirp ID format"⟩
  | some chirpID =>
    match getChirpByID chirpID with
    | Except.error StoreErr.noRows => ⟨404, RespBody.errJson "Chirp not found"⟩
    | Except.error StoreErr.failure => ⟨500, RespBody.errJson "Error getting chirp"⟩
    | Except.ok chirp =>
      ⟨200, RespBody.chirpJson ⟨chirp.id, chirp.createdAt, chirp.updatedAt, chirp.body, chirp.userID⟩⟩

/-- Result of running `adminResetHandler`: status, optional error
message, the hit-counter value after the call, and whether
`DeleteAllUsers` was invoked. -/
structure ResetResult where
  status : Nat
  errorMsg : Option String
  hits : Nat
  deleteAllUsersCalled : Bool
deriving DecidableEq

/-- Embedding of `adminResetHandler` of main.go: outside platform
"dev" it responds 403 and touches nothing; in "dev" it first stores 0
into the hit counter and then calls `DeleteAllUsers`, answering 500 on
store error and 200 otherwise. -/
def adminResetHandler (platform : String) (hits : Nat)
    (deleteAllUsers : Except StoreErr Unit) : ResetResult :=
  if platform ≠ "dev" then
    ⟨403, some "This endpoint is only available in development", hits, false⟩
  else
    match deleteAllUsers with
    | Except.error _ => ⟨500, some "Error deleting users", 0, true⟩
    | Except.ok _ => ⟨200, none, 0, true⟩

/-- Modulus of the 32-bit hit counter bit pattern. -/
def hitsMod : Nat := 4294967296

/-- Signed value of a 32-bit bit pattern, as `%d` prints an int32. -/
def int32View (n : Nat) : Int :=
  if n < 2147483648 then (n : Int) else (n : Int) - 4294967296

/-- The routes that main.go registers on its ServeMux. -/
inductive Route
  | healthz
  | chirpsPost
  | chirpsGet
  | chirpByID
  | adminMetrics
  | adminReset
  | users
  | assets
  | app
deriving DecidableEq

/-- Effect of one routed request on the hit-counter bit pattern: only
the app asset tree is wrapped in `middlewareMetricsInc` (increment,
wrapping as `atomic.Int32.Add` does), and `adminResetHandler` stores 0
when the platform is "dev"; every other route leaves the counter
alone. -/
def routeStep (platform : String) (hits : Nat) (r : Route) : Nat :=
  match r with
  | Route.app => (hits + 1) % hitsMod
  | Route.adminReset => if platform = "dev" then 0 else hits
  | _ => hits

/-- Hit-counter bit pattern after serving a sequence of requests from
the initial value 0. -/
def runRoutes (platform : String) (rs : List Route) : Nat :=
  rs.foldl (routeStep platform) 0

/-- Number of requests in a sequence that hit the instrumented app
asset route. -/
def countApp : List Route → Nat
  | [] => 0
  | Route.app :: rs => countApp rs + 1
  | _ :: rs => countApp rs

/-- Embedding of `adminMetricsHandler` of main.go: the HTML report
with the current signed counter value interpolated for %d. -/
def adminMetricsHandler (hits : Nat) : String :=
  "<html>\n  <body>\n    <h1>Welcome, Chirpy Admin</h1>\n    <p>Chirpy has been visited "
    ++ toString (int32View hits)
    ++ " times!</p>\n  </body>\n</html>"

/-- A store whose `CreateUser` always succeeds, echoing its arguments
back as the stored row. -/
def alwaysOkUserStore : CreateUserParams → Except StoreErr DBUser :=
  fun p => Except.ok ⟨p.id, p.createdAt, p.updatedAt, p.email⟩

/-- A store whose `CreateChirp` always succeeds, echoing its arguments
back as the stored row. -/
def alwaysOkChirpStore : CreateChirpParams → Except StoreErr DBChirp :=
  fun p => Except.ok ⟨p.id, p.createdAt, p.updatedAt, p.body, p.userID⟩

theorem splitOnSpaceAux_ne_nil (cs acc : List Char) : splitOnSpaceAux cs acc ≠ [] := by
  match cs with
  | [] => simp [splitOnSpaceAux]
  | c :: cs =>
    unfold splitOnSpaceAux
    split
    · simp
    · exact splitOnSpaceAux_ne_nil cs (c :: acc)

theorem joinSpace_cons (w : List Char) (ws : List (List Char)) (h : ws ≠ []) :
    joinSpace (w :: ws) = w ++ ' ' :: joinSpace ws := by
  match ws with
  | [] => exact absurd rfl h
  | w2 :: ws2 => rfl

theorem joinSpace_splitOnSpaceAux (cs acc : List Char) :
    joinSpace (splitOnSpaceAux cs acc) = acc.reverse ++ cs := by
  match cs with
  | [] => simp [splitOnSpaceAux, joinSpace]
  | c :: cs =>
    unfold splitOnSpaceAux
    split
    · rename_i hc
      rw [joinSpace_cons _ _ (splitOnSpaceAux_ne_nil cs []),
        joinSpace_splitOnSpaceAux cs []]
      simp [hc]
    · rw [joinSpace_splitOnSpaceAux cs (c :: acc)]
      simp

theorem joinSpace_splitOnSpace (l : List Char) : joinSpace (splitOnSpace l) = l := by
  simpa using joinSpace_splitOnSpaceAux l []

theorem utf8LenL_append (a b : List Char) : utf8LenL (a ++ b) = utf8LenL a + utf8LenL b := by
  simp [utf8LenL]

theorem length_le_utf8LenL (l : List Char) : l.length ≤ utf8LenL l := by
  induction l with
  | nil => simp [utf8LenL]
  | cons c cs ih =>
    have hc := Char.utf8Size_pos c
    simp only [utf8LenL, List.map_cons, List.sum_cons, List.length_cons] at *
    omega

theorem utf8LenL_maskWord_le (w : List Char) : utf8LenL (maskWord w) ≤ utf8LenL w := by
  by_cases h : w.map Char.toLower ∈ profaneWords
  · have hlen : 6 ≤ w.length := by
      have hml : (w.map Char.toLower).length = w.length := List.length_map w Char.toLower
      simp only [profaneWords, List.mem_cons, List.not_mem_nil, or_false] at h
      rcases h with h | h | h <;>
        · have hlc := congrArg List.length h
          rw [hml] at hlc
          simp at hlc
          omega
    have h4 : utf8LenL (maskWord w) = 4 := by
      rw [maskWord, if_pos h]
      decide
    have := length_le_utf8LenL w
    omega
  · rw [maskWord, if_neg h]

theorem utf8LenL_joinSpace_mask_le (ws : List (List Char)) :
    utf8LenL (joinSpace (ws.map maskWord)) ≤ utf8LenL (joinSpace ws) := by
  match ws with
  | [] => simp
  | [w] => simpa [joinSpace] using utf8LenL_maskWord_le w
  | w :: w2 :: ws2 =>
    rw [List.map_cons, joinSpace_cons _ _ (by simp),
      joinSpace_cons _ (w2 :: ws2) (by simp)]
    have h1 := utf8LenL_maskWord_le w
    have h2 := utf8LenL_joinSpace_mask_le (w2 :: ws2)
    rw [show ' ' :: joinSpace ((w2 :: ws2).map maskWord)
        = [' '] ++ joinSpace ((w2 :: ws2).map maskWord) from rfl,
      show ' ' :: joinSpace (w2 :: ws2) = [' '] ++ joinSpace (w2 :: ws2) from rfl,
      utf8LenL_append, utf8LenL_append, utf8LenL_append, utf8LenL_append]
    omega

theorem utf8Len_cleanProfanity_le (s : String) :
    utf8Len (cleanProfanity s) ≤ utf8Len s := by
  have h := utf8LenL_joinSpace_mask_le (splitOnSpace s.data)
  rw [joinSpace_splitOnSpace] at h
  exact h

theorem space_notMem_splitOnSpaceAux (cs : List Char) :
    ∀ acc t, ' ' ∉ acc → t ∈ splitOnSpaceAux cs acc → ' ' ∉ t := by
  match cs with
  | [] =>
    intro acc t hacc ht
    simp only [splitOnSpaceAux, List.mem_singleton] at ht
    subst ht
    simpa using hacc
  | c :: cs =>
    intro acc t hacc ht
    unfold splitOnSpaceAux at ht
    split at ht
    · rcases List.mem_cons.mp ht with h | h
      · subst h; simpa using hacc
      · exact space_notMem_splitOnSpaceAux cs [] t (by simp) h
    · rename_i hc
      refine space_notMem_splitOnSpaceAux cs (c :: acc) t ?_ ht
      intro hmem
      rcases List.mem_cons.mp hmem with h | h
      · exact hc h.symm
      · exact hacc h

theorem splitOnSpaceAux_append_noSpace (w : List Char) :
    ∀ cs acc, ' ' ∉ w →
      splitOnSpaceAux (w ++ cs) acc = splitOnSpaceAux cs (w.reverse ++ acc) := by
  match w with
  | [] => intro cs acc _; simp
  | c :: w' =>
    intro cs acc h
    have hc : ¬ c = ' ' := fun hc => h (by simp [hc])
    have hw' : ' ' ∉ w' := fun hm => h (List.mem_cons_of_mem c hm)
    have hstep : splitOnSpaceAux (c :: (w' ++ cs)) acc = splitOnSpaceAux (w' ++ cs) (c :: acc) := by
      simp only [splitOnSpaceAux]
      rw [if_neg hc]
    show splitOnSpaceAux (c :: (w' ++ cs)) acc = _
    rw [hstep, splitOnSpaceAux_append_noSpace w' cs (c :: acc) hw']
    simp

theorem splitOnSpace_joinSpace (ws : List (List Char)) (hne : ws ≠ [])
    (h : ∀ w ∈ ws, ' ' ∉ w) : splitOnSpace (joinSpace ws) = ws := by
  match ws with
  | [] => exact absurd rfl hne
  | [w] =>
    have hw : ' ' ∉ w := h w (by simp)
    show splitOnSpaceAux (joinSpace [w]) [] = [w]
    have : joinSpace [w] = w ++ [] := by simp [joinSpace]
    rw [this, splitOnSpaceAux_append_noSpace w [] [] hw]
    simp [splitOnSpaceAux]
  | w :: w2 :: ws2 =>
    have hw : ' ' ∉ w := h w (by simp)
    have hrest : ∀ v ∈ w2 :: ws2, ' ' ∉ v := fun v hv => h v (List.mem_cons_of_mem w hv)
    show splitOnSpaceAux (joinSpace (w :: w2 :: ws2)) [] = w :: w2 :: ws2
    rw [joinSpace_cons _ (w2 :: ws2) (by simp),
      splitOnSpaceAux_append_noSpace w (' ' :: joinSpace (w2 :: ws2)) [] hw]
    have hrec : splitOnSpaceAux (joinSpace (w2 :: ws2)) [] = w2 :: ws2 :=
      splitOnSpace_joinSpace (w2 :: ws2) (by simp) hrest
    unfold splitOnSpaceAux
    rw [if_pos rfl, hrec]
    simp

theorem maskWord_maskWord (w : List Char) : maskWord (maskWord w) = maskWord w := by
  by_cases h : w.map Char.toLower ∈ profaneWords
  · have hmw : maskWord w = "****".data := by rw [maskWord, if_pos h]
    rw [hmw]
    decide
  · have hmw : maskWord w = w := by rw [maskWord, if_neg h]
    rw [hmw]
    exact hmw

theorem space_notMem_maskWord (w : List Char) (h : ' ' ∉ w) : ' ' ∉ maskWord w := by
  by_cases hm : w.map Char.toLower ∈ profaneWords
  · rw [maskWord, if_pos hm]
    decide
  · rwa [maskWord, if_neg hm]

theorem splitOnSpace_cleanProfanity (s : String) :
    splitOnSpace (cleanProfanity s).data = (splitOnSpace s.data).map maskWord := by
  show splitOnSpace (joinSpace ((splitOnSpace s.data).map maskWord))
    = (splitOnSpace s.data).map maskWord
  refine splitOnSpace_joinSpace _ ?_ ?_
  · intro hnil
    exact splitOnSpaceAux_ne_nil s.data [] (List.map_eq_nil_iff.mp hnil)
  · intro w hw
    rcases List.mem_map.mp hw with ⟨t, ht, rfl⟩
    exact space_notMem_maskWord t (space_notMem_splitOnSpaceAux s.data [] t (by simp) ht)

/-- C1: cleanProfanity splits on single spaces, masks exactly the
tokens whose lowercasing equals kerfuffle, sharbert or fornax with the
4-character mask, leaves every other token (superstrings included)
unchanged, rejoins with single spaces; in particular it moderates the
kerfuffle example sentence as the spec shows and leaves the
superstring kerfuffled alone. -/
theorem cleanProfanity_matches_spec :
    (∀ s : String, cleanProfanity s = moderateSpec s)
    ∧ cleanProfanity "This is a kerfuffle opinion I need to share"
        = "This is a **** opinion I need to share"
    ∧ cleanProfanity "kerfuffled" = "kerfuffled"
    ∧ cleanProfanity "Kerfuffle" = "****" := by
  refine ⟨fun s => ?_, by decide, by decide, by decide⟩
  unfold cleanProfanity moderateSpec
  congr 2
  refine List.map_congr_left fun w _ => ?_
  simp only [maskWord, profaneWords, List.mem_cons, List.not_mem_nil, or_false]

/-- C7: on any body of byte length at most 140 none of whose
space-delimited tokens lowercases to a denylisted word, cleanProfanity
is the identity. -/
theorem cleanProfanity_id_of_clean (s : String) (h140 : utf8Len s ≤ 140)
    (h : ∀ w ∈ splitOnSpace s.data, w.map Char.toLower ∉ profaneWords) :
    cleanProfanity s = s := by
  apply String.ext
  show joinSpace ((splitOnSpace s.data).map maskWord) = s.data
  have hpt : ∀ w ∈ splitOnSpace s.data, maskWord w = id w := fun w hw => by
    rw [maskWord, if_neg (h w hw)]
    rfl
  rw [List.map_congr_left hpt, List.map_id, joinSpace_splitOnSpace]

/-- C7 witness: a concrete clean body with a repeated interior space
and a trailing space is returned unchanged. -/
theorem cleanProfanity_id_of_clean_witness :
    utf8Len "Hello  world " ≤ 140
    ∧ (∀ w ∈ splitOnSpace "Hello  world ".data, w.map Char.toLower ∉ profaneWords)
    ∧ cleanProfanity "Hello  world " = "Hello  world " :=
  ⟨by decide, by decide,
    cleanProfanity_id_of_clean "Hello  world " (by decide) (by decide)⟩

/-- C8: cleanProfanity is idempotent: masked tokens are the mask,
which is not denylisted, and unmasked tokens are untouched again. -/
theorem cleanProfanity_idempotent (s : String) :
    cleanProfanity (cleanProfanity s) = cleanProfanity s := by
  apply String.ext
  show joinSpace ((splitOnSpace (cleanProfanity s).data).map maskWord)
    = (cleanProfanity s).data
  rw [splitOnSpace_cleanProfanity, List.map_map]
  show joinSpace ((splitOnSpace s.data).map (maskWord ∘ maskWord)) = _
  have : (splitOnSpace s.data).map (maskWord ∘ maskWord)
      = (splitOnSpace s.data).map maskWord :=
    List.map_congr_left fun w _ => maskWord_maskWord w
  rw [this]
  rfl

/-- C2: a chirp-creation request whose decoded body has more than 140
characters is answered 400 with the error "Chirp is too long", with no
call to cleanProfanity and no call to CreateChirp (the byte length Go
checks is at least the character length, so it exceeds 140 as well). -/
theorem createChirp_rejects_long (req : CreateChirpRequest) (freshId : UUID)
    (t1 t2 : Time) (store : CreateChirpParams → Except StoreErr DBChirp)
    (hlen : 140 < req.body.data.length) :
    createChirpHandler (some req) freshId t1 t2 store
      = ⟨⟨400, RespBody.errJson "Chirp is too long"⟩, [], []⟩ := by
  have hbytes : 140 < utf8Len req.body :=
    lt_of_lt_of_le hlen (length_le_utf8LenL req.body.data)
  simp [createChirpHandler, hbytes]

/-- C2 witness: a 141-character body is rejected with the expected
error and empty invocation traces. -/
theorem createChirp_rejects_long_witness :
    140 < (String.mk (List.replicate 141 'a')).data.length
    ∧ createChirpHandler (some ⟨String.mk (List.replicate 141 'a'), ⟨0⟩⟩)
        ⟨0⟩ ⟨0⟩ ⟨0⟩ alwaysOkChirpStore
      = ⟨⟨400, RespBody.errJson "Chirp is too long"⟩, [], []⟩ :=
  ⟨by simp, createChirp_rejects_long _ _ _ _ _ (by simp)⟩

/-- C9: cleanProfanity never lengthens its input (in UTF-8 bytes), so
every body the chirp handler hands to CreateChirp is within the
140-byte limit the handler enforced before moderating. -/
theorem stored_chirp_within_limit :
    (∀ s : String, utf8Len (cleanProfanity s) ≤ utf8Len s)
    ∧ ∀ (decoded : Option CreateChirpRequest) (freshId : UUID) (t1 t2 : Time)
        (store : CreateChirpParams → Except StoreErr DBChirp),
        ∀ p ∈ (createChirpHandler decoded freshId t1 t2 store).storeCalls,
          utf8Len p.body ≤ 140 := by
  refine ⟨utf8Len_cleanProfanity_le, ?_⟩
  intro decoded freshId t1 t2 store p hp
  match decoded with
  | none => simp [createChirpHandler] at hp
  | some req =>
    by_cases hlen : utf8Len req.body > 140
    · simp [createChirpHandler, hlen] at hp
    · push_neg at hlen
      have hclean : utf8Len (cleanProfanity req.body) ≤ 140 :=
        le_trans (utf8Len_cleanProfanity_le req.body) hlen
      rcases hstore : store ⟨freshId, t1, t2, cleanProfanity req.body, req.userID⟩ with e | c
      · simp [createChirpHandler, Nat.not_lt.mpr hlen, hstore] at hp
        rw [hp]
        exact hclean
      · simp [createChirpHandler, Nat.not_lt.mpr hlen, hstore] at hp
        rw [hp]
        exact hclean

/-- C9 witness: a concrete accepted body containing a denylisted word
is stored in moderated form within the limit. -/
theorem stored_chirp_within_limit_witness :
    (⟨⟨7⟩, ⟨1⟩, ⟨2⟩, cleanProfanity "hi kerfuffle", ⟨3⟩⟩ : CreateChirpParams)
      ∈ (createChirpHandler (some ⟨"hi kerfuffle", ⟨3⟩⟩) ⟨7⟩ ⟨1⟩ ⟨2⟩
          alwaysOkChirpStore).storeCalls
    ∧ utf8Len (⟨⟨7⟩, ⟨1⟩, ⟨2⟩, cleanProfanity "hi kerfuffle", ⟨3⟩⟩ : CreateChirpParams).body
        ≤ 140 :=
  ⟨by decide,
    stored_chirp_within_limit.2 (some ⟨"hi kerfuffle", ⟨3⟩⟩) ⟨7⟩ ⟨1⟩ ⟨2⟩
      alwaysOkChirpStore _ (by decide)⟩

theorem routeStep_skip (platform : String) (c : Nat) (r : Route)
    (happ : r ≠ Route.app) (hreset : r ≠ Route.adminReset) :
    routeStep platform c r = c := by
  cases r <;> first | rfl | exact absurd rfl happ | exact absurd rfl hreset

theorem countApp_skip (r : Route) (rs : List Route) (happ : r ≠ Route.app) :
    countApp (r :: rs) = countApp rs := by
  cases r <;> first | rfl | exact absurd rfl happ

theorem foldl_routeStep (platform : String) (rs : List Route) :
    ∀ c, c < hitsMod → (∀ r ∈ rs, r ≠ Route.adminReset) →
      List.foldl (routeStep platform) c rs = (c + countApp rs) % hitsMod := by
  induction rs with
  | nil =>
    intro c hc _
    simp [countApp, Nat.mod_eq_of_lt hc]
  | cons r rs ih =>
    intro c hc hres
    have hrest : ∀ q ∈ rs, q ≠ Route.adminReset :=
      fun q hq => hres q (List.mem_cons_of_mem r hq)
    by_cases happ : r = Route.app
    · subst happ
      show List.foldl (routeStep platform) ((c + 1) % hitsMod) rs = _
      rw [ih ((c + 1) % hitsMod) (Nat.mod_lt _ (by norm_num [hitsMod])) hrest,
        Nat.mod_add_mod]
      show (c + 1 + countApp rs) % hitsMod = (c + (countApp rs + 1)) % hitsMod
      congr 1
      omega
    · have hr := hres r (List.mem_cons_self r rs)
      show List.foldl (routeStep platform) (routeStep platform c r) rs = _
      rw [routeStep_skip platform c r happ hr, ih c hc hrest, countApp_skip r rs happ]

theorem countApp_replicate_app (n : Nat) :
    countApp (List.replicate n Route.app) = n := by
  induction n with
  | zero => rfl
  | succ n ih => simp [List.replicate_succ, countApp, ih]

/-- C3 (amended): the hit counter is bumped exactly once per request
to the instrumented app asset tree and by no other route; starting
from 0, after any interleaving of N app requests with requests to the
other, non-instrumented routes (reset excluded), the metrics report
embeds exactly N provided N stays below 2^31; and a development-mode
reset makes the report embed 0. -/
theorem hit_counter_counts_app_requests (platform : String) (rs : List Route)
    (hres : ∀ r ∈ rs, r ≠ Route.adminReset)
    (hN : countApp rs < 2147483648) :
    int32View (runRoutes platform rs) = countApp rs
    ∧ adminMetricsHandler (runRoutes platform rs)
        = "<html>\n  <body>\n    <h1>Welcome, Chirpy Admin</h1>\n    <p>Chirpy has been visited "
            ++ toString ((countApp rs : Nat) : Int) ++ " times!</p>\n  </body>\n</html>"
    ∧ (∀ c, routeStep platform c Route.app = (c + 1) % hitsMod)
    ∧ (∀ c r, r ≠ Route.app → r ≠ Route.adminReset → routeStep platform c r = c)
    ∧ (∀ qs : List Route, int32View (runRoutes "dev" (qs ++ [Route.adminReset])) = 0) := by
  have hrun : runRoutes platform rs = countApp rs := by
    have hlt : countApp rs < hitsMod := by
      have hm : (2147483648 : Nat) < hitsMod := by norm_num [hitsMod]
      omega
    rw [runRoutes, foldl_routeStep platform rs 0 (by norm_num [hitsMod]) hres,
      Nat.zero_add]
    exact Nat.mod_eq_of_lt hlt
  refine ⟨?_, ?_, fun c => rfl, routeStep_skip platform, ?_⟩
  · rw [hrun, int32View, if_pos hN]
  · rw [adminMetricsHandler, hrun, int32View, if_pos hN]
  · intro qs
    have hz : runRoutes "dev" (qs ++ [Route.adminReset]) = 0 := by
      rw [runRoutes, List.foldl_append]
      simp [routeStep]
    rw [hz]
    decide

/-- C3 witness: two app requests interleaved with non-instrumented
requests leave the counter at the signed value 2 and the report shows
2. -/
theorem hit_counter_counts_app_requests_witness :
    (∀ r ∈ [Route.app, Route.healthz, Route.chirpsPost, Route.app, Route.assets],
        r ≠ Route.adminReset)
    ∧ countApp [Route.app, Route.healthz, Route.chirpsPost, Route.app, Route.assets]
        < 2147483648
    ∧ int32View (runRoutes "prod"
        [Route.app, Route.healthz, Route.chirpsPost, Route.app, Route.assets]) = 2 :=
  ⟨by decide, by decide,
    (hit_counter_counts_app_requests "prod"
      [Route.app, Route.healthz, Route.chirpsPost, Route.app, Route.assets]
      (by decide) (by decide)).1⟩

/-- C3 counterexample: the counter is a 32-bit signed integer, so
after 2^31 instrumented requests the report embeds the wrapped value
-2147483648, not the request count 2147483648. -/
theorem hit_counter_overflow_cx :
    int32View (runRoutes "prod" (List.replicate 2147483648 Route.app)) = -2147483648
    ∧ countApp (List.replicate 2147483648 Route.app) = 2147483648
    ∧ (-2147483648 : Int) ≠ 2147483648 := by
  have hres : ∀ r ∈ List.replicate 2147483648 Route.app, r ≠ Route.adminReset := by
    intro r hr
    rw [List.eq_of_mem_replicate hr]
    decide
  have hrun : runRoutes "prod" (List.replicate 2147483648 Route.app) = 2147483648 := by
    rw [runRoutes, foldl_routeStep "prod" _ 0 (by norm_num [hitsMod]) hres,
      countApp_replicate_app]
    norm_num [hitsMod]
  refine ⟨?_, countApp_replicate_app 2147483648, by norm_num⟩
  rw [hrun, int32View, if_neg (by norm_num)]
  norm_num

/-- C4: a reset request outside platform "dev" is answered 403 with an
error message, the hit counter keeps its value, and DeleteAllUsers is
not invoked. -/
theorem reset_rejected_outside_dev (platform : String) (hits : Nat)
    (del : Except StoreErr Unit) (h : platform ≠ "dev") :
    adminResetHandler platform hits del
      = ⟨403, some "This endpoint is only available in development", hits, false⟩ := by
  simp [adminResetHandler, h]

/-- C4 witness: on platform "prod" with counter 7 the reset is refused
and the counter stays 7 with no delete call. -/
theorem reset_rejected_outside_dev_witness :
    "prod" ≠ "dev"
    ∧ adminResetHandler "prod" 7 (Except.ok ())
        = ⟨403, some "This endpoint is only available in development", 7, false⟩ :=
  ⟨by decide, reset_rejected_outside_dev "prod" 7 (Except.ok ()) (by decide)⟩

/-- C10: in development mode the handler zeroes the counter before the
DeleteAllUsers call, so a failing delete still answers 500 with the
counter already at 0 (and a successful delete answers 200, also with
the counter at 0). -/
theorem reset_zeroes_counter_despite_store_error (hits : Nat) (e : StoreErr) :
    adminResetHandler "dev" hits (Except.error e)
      = ⟨500, some "Error deleting users", 0, true⟩
    ∧ adminResetHandler "dev" hits (Except.ok ())
      = ⟨200, none, 0, true⟩ := by
  constructor <;> rfl

/-- C5: chirp lookup answers 400 when the identifier does not parse as
a UUID, 404 when the store signals the distinguished no-rows
condition, 500 on any other store error, and 200 with the chirp JSON
fields on success. -/
theorem getChirpByID_outcomes (store : UUID → Except StoreErr DBChirp) :
    getChirpByIDHandler none store = ⟨400, RespBody.errJson "Invalid chirp ID format"⟩
    ∧ (∀ u, store u = Except.error StoreErr.noRows →
        getChirpByIDHandler (some u) store = ⟨404, RespBody.errJson "Chirp not found"⟩)
    ∧ (∀ u, store u = Except.error StoreErr.failure →
        getChirpByIDHandler (some u) store = ⟨500, RespBody.errJson "Error getting chirp"⟩)
    ∧ (∀ u c, store u = Except.ok c →
        getChirpByIDHandler (some u) store
          = ⟨200, RespBody.chirpJson ⟨c.id, c.createdAt, c.updatedAt, c.body, c.userID⟩⟩) := by
  refine ⟨rfl, fun u hu => ?_, fun u hu => ?_, fun u c hu => ?_⟩ <;>
    simp [getChirpByIDHandler, hu]

/-- C5 witness: with a store holding no rows, a parse failure gives
400 and a parsed identifier gives 404. -/
theorem getChirpByID_outcomes_witness :
    getChirpByIDHandler none (fun _ => Except.error StoreErr.noRows)
      = ⟨400, RespBody.errJson "Invalid chirp ID format"⟩
    ∧ (fun _ : UUID => Except.error StoreErr.noRows : UUID → Except StoreErr DBChirp) ⟨5⟩
        = Except.error StoreErr.noRows
    ∧ getChirpByIDHandler (some ⟨5⟩) (fun _ => Except.error StoreErr.noRows)
      = ⟨404, RespBody.errJson "Chirp not found"⟩ :=
  ⟨(getChirpByID_outcomes (fun _ => Except.error StoreErr.noRows)).1, rfl,
    (getChirpByID_outcomes (fun _ => Except.error StoreErr.noRows)).2.1 ⟨5⟩ rfl⟩

/-- C6 (amended): a user-creation envelope that fails to decode (an
empty body, a document that is neither an object nor null, or an email
field that is neither a string nor null) is answered 400 with no store
call; any envelope that decodes, including an object with no email
field at all, leads to exactly one CreateUser call and is answered 201
with the created user JSON on success and 500 on store failure. -/
theorem createUser_outcomes (raw : Option Json) (freshId : UUID) (t1 t2 : Time)
    (store : CreateUserParams → Except StoreErr DBUser) :
    (decodeUserRequest raw = none →
      createUserHandler raw freshId t1 t2 store
        = ⟨⟨400, RespBody.errJson "Invalid request payload"⟩, []⟩)
    ∧ (∀ ur, decodeUserRequest raw = some ur →
        (∀ e, store ⟨freshId, ur.email, t1, t2⟩ = Except.error e →
          createUserHandler raw freshId t1 t2 store
            = ⟨⟨500, RespBody.errJson "Error creating user"⟩, [⟨freshId, ur.email, t1, t2⟩]⟩)
        ∧ (∀ d, store ⟨freshId, ur.email, t1, t2⟩ = Except.ok d →
          createUserHandler raw freshId t1 t2 store
            = ⟨⟨201, RespBody.userJson ⟨d.id, d.createdAt, d.updatedAt, d.email⟩⟩,
                [⟨freshId, ur.email, t1, t2⟩]⟩)) := by
  refine ⟨fun hdec => ?_, fun ur hdec => ⟨fun e hst => ?_, fun d hst => ?_⟩⟩
  · simp [createUserHandler, hdec]
  · simp [createUserHandler, hdec, hst]
  · simp [createUserHandler, hdec, hst]

/-- C6 witness: an empty request body fails to decode and is answered
400 with no store call. -/
theorem createUser_outcomes_witness :
    decodeUserRequest none = none
    ∧ createUserHandler none ⟨1⟩ ⟨2⟩ ⟨3⟩ alwaysOkUserStore
        = ⟨⟨400, RespBody.errJson "Invalid request payload"⟩, []⟩ :=
  ⟨rfl, (createUser_outcomes none ⟨1⟩ ⟨2⟩ ⟨3⟩ alwaysOkUserStore).1 rfl⟩

/-- C6 counterexample: the empty JSON object is a structured object
with no email field, yet it decodes (to the empty email) and the
handler answers 201, not the 400 the claim requires. -/
theorem createUser_empty_object_cx :
    decodeUserRequest (some (Json.obj [])) = some ⟨""⟩
    ∧ (createUserHandler (some (Json.obj [])) ⟨1⟩ ⟨2⟩ ⟨3⟩ alwaysOkUserStore).resp.status = 201
    ∧ (createUserHandler (some (Json.obj [])) ⟨1⟩ ⟨2⟩ ⟨3⟩ alwaysOkUserStore).resp.status
        ≠ 400 := by
  refine ⟨rfl, rfl, ?_⟩
  intro h
  simp [createUserHandler, decodeUserRequest, lookupField, alwaysOkUserStore] at h
